import Mathlib

/-!
Verification development for the `agent_runner` workflow engine.

This file gives a shallow embedding of the core of the repository:

* `WorkspaceManager.load` (src/agent_runner/core/workspace.py) — parsing of the
  flat key-encoded workspace JSON into `WorkspaceData`;
* `Run.execute` / `Run._execute_step` / `Run._execute_function`
  (src/agent_runner/core/run.py) — the executed run pipeline: the step loop over
  `nextStep` pointers, the single LLM call per step, tool-call dispatch
  (sequential and `asyncio.gather` parallel), conversation history and the
  results mapping;
* the helper module `src/agent_runner/core/function_execution/executor.py`
  (`find_function`, `execute_functions_sequential`, `execute_functions_parallel`)
  — an alternative dispatcher implementation present in the repository;
* `prepare_conversation` (src/agent_runner/core/llm/conversation.py);
* the two parameter-schema converters
  (src/agent_runner/core/llm/client.py `convert_parameters_to_schema` and
  run.py `Run._convert_parameters_to_schema`);
* `process_text` (src/agent_runner/functions/sample_functions.py).

Modelling conventions: Python dicts with a fixed key set are Lean structures
whose field defaults are the `dict.get(key, default)` defaults used by the
code; dicts used as mappings are association lists updated by `insertReplace`
(Python dict assignment: replace in place, else append); a Python `raise` is
`Except.error`; the language-model gateway is an oracle parameter giving the
assistant response for each call; `asyncio.gather` concurrency is made explicit
by a completion-schedule parameter (the order in which the spawned tasks
finish, each task applying its state updates when it completes).  Inline
function source strings (`exec` in the Python code) are modelled by storing the
compiled callable directly: a `code` field of `some f` stands for inline source
that compiles to `f`, `none` for an absent/empty `code` entry.
-/

/-- JSON-serializable values: arguments and results of tool calls. -/
inductive Json where
  | str : String → Json
  | num : Int → Json
  | bool : Bool → Json
  | null : Json
  | arr : List Json → Json
  | obj : List (String × Json) → Json

/-- Lookup of a key in a JSON object (Python `dict.get` on a parsed object). -/
def Json.get? : Json → String → Option Json
  | .obj kvs, k => kvs.lookup k
  | _, _ => none

/-- One conversation message.  The executed code builds messages as dicts with
`role` and `content`, plus `tool_call_id` and `name` on tool-result messages. -/
structure Message where
  role : String
  content : String
  tool_call_id : Option String := none
  name : Option String := none
deriving Repr, DecidableEq

/-- A typed parameter declaration of a function (name, type, description),
as read by both schema converters via `param.get('name')` etc. -/
structure Param where
  name : String
  type : String
  description : String := ""
deriving Repr, DecidableEq

/-- An entry of the workspace root `steps` list; the code only reads
`step.get('id')`. -/
structure StepRef where
  id : String
deriving Repr, DecidableEq

/-- A resolved tool implementation: a callable from named JSON arguments to a
JSON-serializable result, or a runtime error (a Python exception message). -/
def Impl : Type := Json → Except String Json

/-- The value of one `...#details` entry of the workspace JSON.  Python stores
these as plain dicts; the fields below are all keys the code ever reads, with
the defaults the code supplies in the corresponding `.get` calls
(`nextStep` default `'-'`, `model` default `'gpt-4'`, missing lists empty,
missing flags false).  `steps`/`functions` model key presence tested by
`'steps' in value` on the workspace-root entry; `functionNames` models the
`function` key of a step detail (a list of names); `code` models the inline
source of a function detail as its compiled callable. -/
structure Detail where
  steps : Option (List StepRef) := none
  functions : Option (List String) := none
  chat : List Message := []
  functionNames : List String := []
  nextStep : Option String := none
  model : String := "gpt-4"
  runFunctionsInParallel : Bool := false
  passConversationToNextStep : Bool := false
  description : String := ""
  parameters : List Param := []
  code : Option Impl := none

/-- The parsed workspace: `WorkspaceData` of src/agent_runner/core/workspace.py. -/
structure WorkspaceData where
  functions : List String := []
  steps : List StepRef := []
  step_details : List (String × Detail) := []
  function_details : List (String × Detail) := []

/-- Drop `pat` from the front of `l` if it is a prefix (helper for substring
splitting). -/
def dropSeg : List Char → List Char → Option (List Char)
  | [], l => some l
  | _ :: _, [] => none
  | p :: ps, c :: cs => if p = c then dropSeg ps cs else none

/-- Fuel-indexed splitting of a character list on a separator occurrence;
structural recursion so that the kernel can evaluate it. -/
def splitSegFuel (pat : List Char) : Nat → List Char → List (List Char)
  | 0, _ => [[]]
  | _ + 1, [] => [[]]
  | fuel + 1, c :: cs =>
    match dropSeg pat (c :: cs) with
    | some rest => [] :: splitSegFuel pat fuel rest
    | none =>
      match splitSegFuel pat fuel cs with
      | [] => [[c]]
      | h :: t => (c :: h) :: t

/-- Python `s.split(pat)` for a non-empty separator. -/
def strSplitOn (s pat : String) : List String :=
  (splitSegFuel pat.data (s.data.length + 1) s.data).map (fun cs => String.mk cs)

/-- Python `s.endswith(suffix)`. -/
def strEndsWith (s suffix : String) : Bool :=
  suffix.data.isSuffixOf s.data

/-- Python `pat in s` (substring containment, non-empty `pat`). -/
def strContainsSeg (s pat : String) : Bool :=
  (strSplitOn s pat).length != 1

/-- Python `s.lower()` (ASCII). -/
def lowerStr (s : String) : String := String.mk (s.data.map Char.toLower)

/-- Python `s.upper()` (ASCII). -/
def upperStr (s : String) : String := String.mk (s.data.map Char.toUpper)

/-- Python `s.split()` with space whitespace: split on runs of blanks,
dropping empty fields. -/
def pySplitWs (s : String) : List String :=
  ((s.data.splitOn ' ').filter (fun w => !w.isEmpty)).map (fun cs => String.mk cs)

/-- Python dict assignment `d[k] = v` on an association list: replace the value
of an existing key in place, otherwise append the binding. -/
def insertReplace (l : List (String × α)) (k : String) (v : α) : List (String × α) :=
  if l.any (fun p => p.1 == k) then
    l.map (fun p => if p.1 == k then (k, v) else p)
  else
    l ++ [(k, v)]

/-- Python `key.split('@func-')[1].split('#')[0]` — the function name encoded
in a workspace JSON key (guarded by a containment check in the caller). -/
def segName (key pat : String) : String :=
  (strSplitOn ((strSplitOn key pat).getD 1 "") "#").headD ""

/-- `WorkspaceManager.load` (src/agent_runner/core/workspace.py, lines 35-69):
fold over the flat workspace JSON routing each `...#details` entry by its key
segments into step details, function details, or the workspace root (whose
`steps`/`functions` entries overwrite the accumulators when present).  The
source performs no validation and contains no failure path. -/
def load (workspace_json : List (String × Detail)) : WorkspaceData :=
  workspace_json.foldl
    (fun acc kv =>
      let key := kv.1
      let value := kv.2
      if strEndsWith key "#details" then
        if strContainsSeg key "@func-" then
          { acc with function_details := insertReplace acc.function_details (segName key "@func-") value }
        else if strContainsSeg key "@step-" then
          { acc with step_details := insertReplace acc.step_details (segName key "@step-") value }
        else if strContainsSeg key "#details" && !(strContainsSeg key "@func-" || strContainsSeg key "@step-") then
          { acc with
              steps := match value.steps with | some s => s | none => acc.steps,
              functions := match value.functions with | some f => f | none => acc.functions }
        else acc
      else acc)
    {}

mutual
/-- JSON serialization (Python `json.dumps` with default separators), used
when a tool result is embedded in a `tool` conversation message.  String
escaping is not modelled (the development only serializes escape-free
strings). -/
def jsonDumps : Json → String
  | .str s => "\"" ++ s ++ "\""
  | .num n => toString n
  | .bool true => "true"
  | .bool false => "false"
  | .null => "null"
  | .arr xs => "[" ++ jsonDumpsArr xs ++ "]"
  | .obj kvs => "\x7b" ++ jsonDumpsObj kvs ++ "\x7d"

/-- Serialize the elements of a JSON array, comma-separated. -/
def jsonDumpsArr : List Json → String
  | [] => ""
  | [x] => jsonDumps x
  | x :: y :: t => jsonDumps x ++ ", " ++ jsonDumpsArr (y :: t)

/-- Serialize the members of a JSON object, comma-separated. -/
def jsonDumpsObj : List (String × Json) → String
  | [] => ""
  | [(k, v)] => "\"" ++ k ++ "\": " ++ jsonDumps v
  | (k, v) :: p :: t => "\"" ++ k ++ "\": " ++ jsonDumps v ++ ", " ++ jsonDumpsObj (p :: t)
end

/-- Python `str(result)` on a JSON-shaped value. -/
def pyStr : Json → String
  | .str s => s
  | .num n => toString n
  | .bool true => "True"
  | .bool false => "False"
  | .null => "None"
  | .arr xs => jsonDumps (.arr xs)
  | .obj kvs => jsonDumps (.obj kvs)

/-- Run._execute_function line 319: `json.dumps(result) if isinstance(result,
(dict, list)) else str(result)`. -/
def encodeResult : Json → String
  | .obj kvs => jsonDumps (.obj kvs)
  | .arr xs => jsonDumps (.arr xs)
  | j => pyStr j

/-- `importlib.import_module(f"agent_runner.functions.{func_name}")` followed
by `getattr(module, func_name)`: the repository's `agent_runner/functions/`
package contains only `sample_functions.py`, so no module named after a
function exists and this import fails for every function name; likewise no
tool function is bound in the executing module's global namespace. -/
def moduleImport (_func_name : String) : Option Impl := none

/-- Function resolution: `find_function` of
src/agent_runner/core/function_execution/executor.py (lines 164-201), which is
also the inline resolution sequence of `Run._execute_function`
(src/agent_runner/core/run.py lines 258-284): module-global / import lookup,
then the function detail's inline `code`, else the `ValueError`. -/
def find_function (function_details : List (String × Detail)) (func_name : String) : Except String Impl :=
  match moduleImport func_name with
  | some f => .ok f
  | none =>
    match ((function_details.lookup func_name).getD {}).code with
    | some f => .ok f
    | none => .error ("Function " ++ func_name ++ " not found and no code provided")

/-- One tool call requested by the model.  The Python code parses the
`arguments` JSON string with `json.loads`; the parsed object is carried
directly. -/
structure ToolCall where
  id : String
  name : String
  args : Json := Json.obj []

/-- The assistant message of one gateway response: content plus requested
tool calls. -/
structure LLMResponse where
  content : String := ""
  tool_calls : List ToolCall := []

/-- The mutable per-run state: `self.conversation_history` and `self.results`
of the `Run` object. -/
structure RunState where
  history : List Message := []
  results : List (String × Json) := []

/-- `Run._execute_function` (src/agent_runner/core/run.py lines 230-333):
resolve the implementation, call it, store the result in the results mapping,
append the `tool` message (when the call id is truthy), and re-raise any
exception — a resolution or runtime failure is an error of the whole call. -/
def execute_function_run (function_details : List (String × Detail)) (c : ToolCall) (st : RunState) :
    Except String RunState :=
  match find_function function_details c.name with
  | .error e => .error e
  | .ok f =>
    match f c.args with
    | .error e => .error e
    | .ok result =>
      let st1 : RunState := { st with results := insertReplace st.results c.name result }
      if c.id != "" then
        .ok { st1 with history := st1.history ++
          [{ role := "tool", content := encodeResult result,
             tool_call_id := some c.id, name := some c.name }] }
      else .ok st1

/-- The sequential branch of `Run._execute_step` (run.py lines 200-207):
`await self._execute_function(...)` for each call in request order; an
exception propagates immediately and the remaining calls never run. -/
def execute_functions_seq_run (function_details : List (String × Detail)) :
    List ToolCall → RunState → Except String RunState
  | [], st => .ok st
  | c :: rest, st =>
    match execute_function_run function_details c st with
    | .error e => .error e
    | .ok st' => execute_functions_seq_run function_details rest st'

/-- The parallel branch of `Run._execute_step` (run.py lines 189-199):
`asyncio.gather` over one `_execute_function` task per call.  Each task
applies its state updates (results entry and conversation append) when it
completes; `completion_order` is the scheduler's completion sequence over the
task indices, and the first exception in completion order propagates to the
awaiting step. -/
def execute_functions_par_run (function_details : List (String × Detail)) (function_calls : List ToolCall)
    (completion_order : List Nat) (st : RunState) : Except String RunState :=
  execute_functions_seq_run function_details
    (completion_order.filterMap (fun i => function_calls[i]?)) st

/-- `execute_function` of executor.py (lines 12-96) combined with the
per-call lookup of its callers: resolve and call, returning the result or the
exception. -/
def execute_function_exec (function_details : List (String × Detail)) (c : ToolCall) : Except String Json :=
  match find_function function_details c.name with
  | .error e => .error e
  | .ok f => f c.args

/-- `execute_functions_sequential` of executor.py (lines 134-161): execute the
calls one after another in request order, yielding
`(call_id, function_name, result)` and converting any exception — resolution
failures included — into a `{"error": message}` outcome; a failure never
stops the later calls. -/
def execute_functions_sequential (function_details : List (String × Detail)) (function_calls : List ToolCall) :
    List (String × String × Json) :=
  function_calls.map (fun c =>
    match execute_function_exec function_details c with
    | .ok r => (c.id, c.name, r)
    | .error e => (c.id, c.name, Json.obj [("error", Json.str e)]))

/-- `execute_functions_parallel` of executor.py (lines 99-131): builds bare
coroutines (never wrapped in tasks) and `await`s them one at a time inside the
yield loop, so each call only starts executing when awaited — execution and
yield order are the request order, and outcomes are converted exactly as in
the sequential variant. -/
def execute_functions_parallel (function_details : List (String × Detail)) (function_calls : List ToolCall) :
    List (String × String × Json) :=
  function_calls.map (fun c =>
    match execute_function_exec function_details c with
    | .ok r => (c.id, c.name, r)
    | .error e => (c.id, c.name, Json.obj [("error", Json.str e)]))

/-- The property object built for one parameter by
`Run._convert_parameters_to_schema` (run.py lines 345-348): always a plain
`type`/`description` object, with no special case for `array` types. -/
def runParamProp (param : Param) : Json :=
  Json.obj [("type", Json.str param.type), ("description", Json.str param.description)]

/-- The property object built for one parameter by
`convert_parameters_to_schema` (client.py lines 87-98): a parameter of type
`array` becomes a schema array with `items` of type string. -/
def clientParamProp (param : Param) : Json :=
  if param.type = "array" then
    Json.obj [("type", Json.str "array"), ("description", Json.str param.description),
              ("items", Json.obj [("type", Json.str "string")])]
  else
    Json.obj [("type", Json.str param.type), ("description", Json.str param.description)]

/-- `Run._convert_parameters_to_schema` (src/agent_runner/core/run.py lines
335-357): every parameter becomes a `type`/`description` property and every
parameter name is appended to `required`. -/
def Run_convert_parameters_to_schema (parameters : List Param) : Json :=
  let pr := parameters.foldl
    (fun (pr : List (String × Json) × List String) param =>
      (insertReplace pr.1 param.name (runParamProp param), pr.2 ++ [param.name]))
    ([], [])
  Json.obj [("type", Json.str "object"), ("properties", Json.obj pr.1),
            ("required", Json.arr (pr.2.map Json.str))]

/-- `convert_parameters_to_schema` (src/agent_runner/core/llm/client.py lines
70-107): like the run.py converter, but with the `array` special case of
`clientParamProp`; every parameter name is appended to `required`. -/
def convert_parameters_to_schema (parameters : List Param) : Json :=
  let pr := parameters.foldl
    (fun (pr : List (String × Json) × List String) param =>
      (insertReplace pr.1 param.name (clientParamProp param), pr.2 ++ [param.name]))
    ([], [])
  Json.obj [("type", Json.str "object"), ("properties", Json.obj pr.1),
            ("required", Json.arr (pr.2.map Json.str))]

/-- Tool-catalog construction of `Run._execute_step` (run.py lines 119-134):
for each allowed function name, look up its detail and include a tool entry
(a missing or empty detail is skipped by the `if func_details:` truthiness
check); the parameter schema uses the run.py converter. -/
def buildToolsRun (function_details : List (String × Detail)) (names : List String) : List Json :=
  names.foldl
    (fun tools func_name =>
      match function_details.lookup func_name with
      | some fd =>
          tools ++ [Json.obj [("type", Json.str "function"),
            ("function", Json.obj [("name", Json.str func_name),
              ("description", Json.str fd.description),
              ("parameters", Run_convert_parameters_to_schema fd.parameters)])]]
      | none => tools)
    []

/-- Python truthiness of an optional message list (`None` and `[]` are falsy). -/
def pyTruthyList : Option (List Message) → Bool
  | none => false
  | some l => !l.isEmpty

/-- `prepare_conversation` (src/agent_runner/core/llm/conversation.py lines
4-17): the accumulated history if the step's `passConversationToNextStep`
flag is set and the history is truthy, the step's static `chat` template
otherwise. -/
def prepare_conversation (step_detail : Detail) (conversation_history : Option (List Message)) :
    List Message :=
  if step_detail.passConversationToNextStep && pyTruthyList conversation_history then
    (conversation_history.getD [])
  else
    step_detail.chat

/-- The conversation-selection lines of `Run._execute_step` (run.py lines
112-116): `self.conversation_history.copy()` if the executed step's
`passConversationToNextStep` flag is set and the history is non-empty, else
the executed step's `chat` template. -/
def stepConversation (step_detail : Detail) (st : RunState) : List Message :=
  if step_detail.passConversationToNextStep && !st.history.isEmpty then st.history
  else step_detail.chat

/-- `Run._execute_step` (src/agent_runner/core/run.py lines 85-228): select
the conversation, build the tool catalog, make exactly one gateway call,
append the assistant message to the history, dispatch any requested tool
calls under the step's parallel/sequential policy, and return; an exception
from dispatch marks the step failed and re-raises.  Returns the message set
sent to the gateway together with the step outcome. -/
def executeStep (function_details : List (String × Detail))
    (gwi : List Message → List Json → LLMResponse) (completion_order : List Nat)
    (step_detail : Detail) (st : RunState) : List Message × Except String RunState :=
  let conversation := stepConversation step_detail st
  let tools := buildToolsRun function_details step_detail.functionNames
  let response := gwi conversation tools
  let st1 : RunState := { st with history := st.history ++
    [{ role := "assistant", content := response.content }] }
  let result :=
    if !response.tool_calls.isEmpty then
      if step_detail.runFunctionsInParallel then
        execute_functions_par_run function_details response.tool_calls completion_order st1
      else
        execute_functions_seq_run function_details response.tool_calls st1
    else .ok st1
  (conversation, result)

/-- `self.workspace.data.step_details.get(step_id, {})` — the detail of the
step about to execute (run.py lines 68 and 88). -/
def stepDetailAt (ws : WorkspaceData) (current_step : String) : Detail :=
  (ws.step_details.lookup current_step).getD {}

/-- The cursor update of the step loop of `Run.execute` (run.py lines 67-69):
`step_details.get(current_step, {}).get('nextStep', '-')`. -/
def nextOf (step_details : List (String × Detail)) (current_step : String) : String :=
  match step_details.lookup current_step with
  | some d => d.nextStep.getD "-"
  | none => "-"

/-- The cursor of the step loop after `k` iterations, absorbing at the
terminal sentinel `"-"`. -/
def cursorAfter (step_details : List (String × Detail)) (current_step : String) : Nat → String
  | 0 => current_step
  | k + 1 =>
    if current_step = "-" then "-"
    else cursorAfter step_details (nextOf step_details current_step) k

/-- The step ids visited by the step loop within the given number of
iterations (stopping at the sentinel). -/
def visitTrace (step_details : List (String × Detail)) (current_step : String) : Nat → List String
  | 0 => []
  | fuel + 1 =>
    if current_step = "-" then []
    else current_step :: visitTrace step_details (nextOf step_details current_step) fuel

/-- Outcome of a run: `completed` carries the final state and the list of
message sets sent to the gateway (one per gateway call); `failed` carries the
propagated exception message; `outOfFuel` means the step loop was still
running after the given iteration bound. -/
inductive RunResult where
  | completed : RunState → List (List Message) → RunResult
  | failed : String → RunResult
  | outOfFuel : RunResult

/-- The step loop of `Run.execute` (run.py lines 62-69, 71-83): while the
cursor is not the sentinel, execute the current step and advance along
`nextStep`; on normal exit the run is marked completed with its results.  The
Python `while` loop is modelled with an explicit iteration bound `fuel`. -/
def executeSteps (ws : WorkspaceData) (gw : Nat → List Message → List Json → LLMResponse)
    (order : Nat → List Nat) : Nat → String → Nat → RunState → List (List Message) → RunResult
  | 0, _, _, _, _ => .outOfFuel
  | fuel + 1, current_step, idx, st, log =>
    if current_step = "-" then .completed st log
    else
      match executeStep ws.function_details (gw idx) (order idx) (stepDetailAt ws current_step) st with
      | (conversation, .ok st') =>
          executeSteps ws gw order fuel (nextOf ws.step_details current_step) (idx + 1) st'
            (log ++ [conversation])
      | (_, .error e) => .failed e

/-- `Run.execute` (src/agent_runner/core/run.py lines 38-83): raise if the
workspace has no steps, else run the step loop from the first step's id. -/
def executeRun (ws : WorkspaceData) (gw : Nat → List Message → List Json → LLMResponse)
    (order : Nat → List Nat) (fuel : Nat) : RunResult :=
  match ws.steps with
  | [] => .failed "No steps defined in workspace"
  | first_step :: _ => executeSteps ws gw order fuel first_step.id 0 {} []

/-- The results mapping of a completed run. -/
def RunResult.finalResults : RunResult → Option (List (String × Json))
  | .completed st _ => some st.results
  | _ => none

/-- The message sets sent to the gateway during a completed run (one entry
per gateway call). -/
def RunResult.sentLog : RunResult → Option (List (List Message))
  | .completed _ log => some log
  | _ => none

/-- Whether the run reached `completed`. -/
def RunResult.isCompleted : RunResult → Bool
  | .completed _ _ => true
  | _ => false

/-- The number of gateway calls of a completed run. -/
def RunResult.gatewayCallCount : RunResult → Option Nat
  | .completed _ log => some log.length
  | _ => none

/-- `process_text` (src/agent_runner/functions/sample_functions.py lines
84-108, and byte-identical inline source in the test workspace): fold over
the requested operations, recording each recognized operation's result. -/
def process_text (text : String) (operations : List String) : List (String × Json) :=
  operations.foldl
    (fun results operation =>
      if operation = "lowercase" then insertReplace results "lowercase" (Json.str (lowerStr text))
      else if operation = "uppercase" then insertReplace results "uppercase" (Json.str (upperStr text))
      else if operation = "tokenize" then
        insertReplace results "tokenize" (Json.arr ((pySplitWs text).map Json.str))
      else if operation = "count_words" then
        insertReplace results "count_words" (Json.num (pySplitWs text).length)
      else if operation = "count_chars" then
        insertReplace results "count_chars" (Json.num text.length)
      else results)
    []

/-- Calling `process_text(**args)`: extract the `text` and `operations`
keyword arguments (a non-string operation entry matches no branch of the
function and is dropped); calling with missing arguments raises. -/
def process_text_impl : Impl := fun args =>
  match args.get? "text", args.get? "operations" with
  | some (Json.str text), some (Json.arr operations) =>
      .ok (Json.obj (process_text text
        (operations.filterMap (fun j => match j with | Json.str s => some s | _ => none))))
  | _, _ => .error "TypeError: process_text() missing required arguments"

/-- The conversation message ids of a parallel batch outcome: the
`tool_call_id` sequence of the history after a successful
`asyncio.gather` dispatch. -/
def parHistoryIds (fd : List (String × Detail)) (calls : List ToolCall) (order : List Nat)
    (st : RunState) : Option (List (Option String)) :=
  match execute_functions_par_run fd calls order st with
  | .ok st' => some (st'.history.map (fun m => m.tool_call_id))
  | .error _ => none

/-- Stated from the spec for comparison with `load` (claim C5): a step graph
is a valid chain when every `nextStep` resolves to a known step id or the
sentinel, and the chain from the first step reaches the sentinel within the
number of steps. -/
def specValidStepGraph (data : WorkspaceData) : Bool :=
  data.step_details.all (fun sd =>
    (sd.2.nextStep.getD "-") == "-" || (data.step_details.lookup (sd.2.nextStep.getD "-")).isSome)
  && (match data.steps with
      | [] => false
      | first :: _ => cursorAfter data.step_details first.id (data.step_details.length + 1) == "-")

/-- A completion schedule that is never consulted (all scenario steps below
dispatch sequentially unless stated otherwise). -/
def noSchedule : Nat → List Nat := fun _ => []

/-- A tool implementation that ignores its arguments and returns "done". -/
def echoImpl : Impl := fun _ => .ok (Json.str "done")

/-- A tool implementation that raises at runtime. -/
def boomImpl : Impl := fun _ => .error "boom"

/-- Scenario: a single-step workspace exposing one inline tool. -/
def ws_single_tool : WorkspaceData :=
  { steps := [⟨"s"⟩],
    step_details := [("s", { chat := [{ role := "user", content := "go" }],
                             functionNames := ["echo_tool"] })],
    function_details := [("echo_tool", { code := some echoImpl })] }

/-- Scenario gateway: the model requests a tool call on every response. -/
def alwaysToolGateway : Nat → List Message → List Json → LLMResponse :=
  fun _ _ _ => { content := "", tool_calls := [{ id := "call_1", name := "echo_tool" }] }

/-- Scenario: a single-step workspace whose tool raises at runtime. -/
def ws_raising_tool : WorkspaceData :=
  { steps := [⟨"s"⟩],
    step_details := [("s", { functionNames := ["boom_tool"] })],
    function_details := [("boom_tool", { code := some boomImpl })] }

/-- Scenario gateway: the model requests the raising tool once. -/
def gw_request_boom : Nat → List Message → List Json → LLMResponse :=
  fun _ _ _ => { content := "", tool_calls := [{ id := "c1", name := "boom_tool" }] }

/-- Scenario: a single-step workspace referencing a function that is neither
registered nor given inline code. -/
def ws_ghost_tool : WorkspaceData :=
  { steps := [⟨"s"⟩],
    step_details := [("s", { functionNames := ["ghost_tool"] })],
    function_details := [] }

/-- Scenario gateway: the model requests the unresolvable tool. -/
def gw_request_ghost : Nat → List Message → List Json → LLMResponse :=
  fun _ _ _ => { content := "", tool_calls := [{ id := "g1", name := "ghost_tool" }] }

/-- Function catalog for the ordering scenario: three pure inline tools. -/
def fd_abc : List (String × Detail) :=
  [("fa", { code := some (fun _ => .ok (Json.str "ra")) }),
   ("fb", { code := some (fun _ => .ok (Json.str "rb")) }),
   ("fc", { code := some (fun _ => .ok (Json.str "rc")) })]

/-- A batch of three tool calls with ids `a`, `b`, `c` in request order. -/
def calls_abc : List ToolCall :=
  [{ id := "a", name := "fa" }, { id := "b", name := "fb" }, { id := "c", name := "fc" }]

/-- Static template of the first two-step scenario step. -/
def chat1 : List Message := [{ role := "system", content := "step one prompt" }]

/-- Static template of the second two-step scenario step. -/
def chat2 : List Message := [{ role := "system", content := "step two prompt" }]

/-- Scenario: a two-step workspace where step `s1` sets
`passConversationToNextStep` and step `s2` does not. -/
def ws_two_steps : WorkspaceData :=
  { steps := [⟨"s1"⟩],
    step_details := [("s1", { chat := chat1, nextStep := some "s2",
                              passConversationToNextStep := true }),
                     ("s2", { chat := chat2 })] }

/-- Scenario gateway: the model answers "hi" and requests no tools. -/
def gw_say_hi : Nat → List Message → List Json → LLMResponse :=
  fun _ _ _ => { content := "hi" }

/-- Workspace JSON (flat key encoding) whose single step points back to
itself: `nextStep` of step `a` is `a`. -/
def cyclicWorkspaceJson : List (String × Detail) :=
  [("Loop Agent@v1#details", { steps := some [⟨"a"⟩], functions := some [] }),
   ("Loop Agent@v1@step-a#details",
      { nextStep := some "a", chat := [{ role := "user", content := "again" }] })]

/-- Workspace JSON whose single step points to an unknown step id. -/
def danglingWorkspaceJson : List (String × Detail) :=
  [("Dangling Agent@v1#details", { steps := some [⟨"a"⟩] }),
   ("Dangling Agent@v1@step-a#details", { nextStep := some "zzz" })]

/-- The workspace loaded from the cyclic JSON. -/
def ws_cyclic : WorkspaceData := load cyclicWorkspaceJson

/-- Scenario: an acyclic two-step chain `s1 → s2 → "-"`. -/
def ws_chain2 : WorkspaceData :=
  { steps := [⟨"s1"⟩],
    step_details := [("s1", { nextStep := some "s2" }), ("s2", {})] }

/-- A parameter list declaring one array-typed parameter. -/
def arrayParamList : List Param := [⟨"operations", "array", "ops to run"⟩]

/-- Scenario: the test workspace of `src/tests/test_workspace_run.py`: one
step exposing `process_text` with its inline implementation. -/
def ws_process_text : WorkspaceData :=
  { steps := [⟨"1. Process"⟩],
    step_details := [("1. Process",
      { chat := [{ role := "system",
                   content := "You are a helpful AI assistant that can process text and perform calculations." },
                 { role := "user",
                   content := "Process the following text: 'Hello, world!' and count the characters." }],
        functionNames := ["process_text"], model := "openai/gpt-4o" })],
    function_details := [("process_text",
      { description := "Process text with various operations",
        parameters := [⟨"text", "string", "The text to process"⟩,
                       ⟨"operations", "array",
                        "List of operations to perform (lowercase, uppercase, tokenize, count_words, count_chars)"⟩],
        code := some process_text_impl })] }

/-- Scenario gateway: the model requests
`process_text(text="Hello, world!", operations=["lowercase","count_chars"])`. -/
def gw_process_text : Nat → List Message → List Json → LLMResponse :=
  fun _ _ _ =>
    { content := "",
      tool_calls := [{ id := "call_pt",
                       name := "process_text",
                       args := Json.obj [("text", Json.str "Hello, world!"),
                         ("operations", Json.arr [Json.str "lowercase", Json.str "count_chars"])] }] }

/-- A step detail carrying the pass-conversation flag and a template. -/
def passFlagDetail : Detail := { passConversationToNextStep := true, chat := chat1 }

/-- The step-loop cursor absorbs at the terminal sentinel. -/
theorem cursorAfter_sentinel (sd : List (String × Detail)) (k : Nat) :
    cursorAfter sd "-" k = "-" := by
  cases k with
  | zero => rfl
  | succ n => simp [cursorAfter]

/-- A successful association-list lookup means the key occurs among the keys. -/
theorem lookup_some_mem {α : Type} {l : List (String × α)} {k : String} {v : α}
    (h : l.lookup k = some v) : k ∈ l.map Prod.fst := by
  induction l with
  | nil => simp at h
  | cons a rest ih =>
    obtain ⟨k', v'⟩ := a
    rw [List.lookup_cons] at h
    cases hbk : (k == k') with
    | true =>
      have : k = k' := eq_of_beq hbk
      simp [this]
    | false =>
      rw [hbk] at h
      simp only [List.map_cons, List.mem_cons]
      exact Or.inr (ih h)

/-- If the cursor has not reached the sentinel after `fuel` iterations, the
visit trace of length `fuel` is full. -/
theorem visitTrace_length (sd : List (String × Detail)) :
    ∀ (fuel : Nat) (c : String), cursorAfter sd c fuel ≠ "-" →
      (visitTrace sd c fuel).length = fuel := by
  intro fuel
  induction fuel with
  | zero => intro c _; rfl
  | succ n ih =>
    intro c h
    by_cases hc : c = "-"
    · subst hc
      exact absurd (cursorAfter_sentinel sd (n + 1)) h
    · rw [cursorAfter, if_neg hc] at h
      rw [visitTrace, if_neg hc]
      simp [ih _ h]

/-- If the cursor has not reached the sentinel after `fuel` iterations, every
id on the visit trace of length `fuel` is a key of the step-detail mapping. -/
theorem visitTrace_mem_keys (sd : List (String × Detail)) :
    ∀ (fuel : Nat) (c : String), cursorAfter sd c fuel ≠ "-" →
      ∀ x ∈ visitTrace sd c fuel, x ∈ sd.map Prod.fst := by
  intro fuel
  induction fuel with
  | zero => intro c _ x hx; simp [visitTrace] at hx
  | succ n ih =>
    intro c h x hx
    by_cases hc : c = "-"
    · subst hc
      exact absurd (cursorAfter_sentinel sd (n + 1)) h
    · rw [cursorAfter, if_neg hc] at h
      rw [visitTrace, if_neg hc] at hx
      rcases List.mem_cons.mp hx with hx | hx
      · subst hx
        have hnext : nextOf sd x ≠ "-" := by
          intro hn
          rw [hn] at h
          exact h (cursorAfter_sentinel sd n)
        unfold nextOf at hnext
        cases hl : sd.lookup x with
        | none => rw [hl] at hnext; exact absurd rfl hnext
        | some d => exact lookup_some_mem hl
      · exact ih _ h x hx

/-- The visit trace with less fuel is a prefix of the one with more fuel. -/
theorem visitTrace_take {sd : List (String × Detail)} :
    ∀ (f1 f2 : Nat) (c : String), f1 ≤ f2 →
      visitTrace sd c f1 = (visitTrace sd c f2).take f1 := by
  intro f1
  induction f1 with
  | zero => intro f2 c _; simp [visitTrace]
  | succ n ih =>
    intro f2 c h
    obtain ⟨f2', rfl⟩ : ∃ f2', f2 = f2' + 1 := ⟨f2 - 1, by omega⟩
    by_cases hc : c = "-"
    · subst hc; simp [visitTrace]
    · rw [visitTrace, if_neg hc, visitTrace, if_neg hc, List.take_succ_cons]
      rw [ih f2' _ (by omega)]

/-- If the cursor reaches the sentinel within `fuel` iterations, the step
loop with `fuel + 1` iterations of budget does not run out of fuel. -/
theorem executeSteps_not_outOfFuel {ws : WorkspaceData}
    {gw : Nat → List Message → List Json → LLMResponse} {order : Nat → List Nat} :
    ∀ (fuel : Nat) (c : String) (idx : Nat) (st : RunState) (log : List (List Message)),
      cursorAfter ws.step_details c fuel = "-" →
      executeSteps ws gw order (fuel + 1) c idx st log ≠ .outOfFuel := by
  intro fuel
  induction fuel with
  | zero =>
    intro c idx st log h
    rw [cursorAfter] at h
    subst h
    simp [executeSteps]
  | succ n ih =>
    intro c idx st log h
    by_cases hc : c = "-"
    · subst hc; simp [executeSteps]
    · rw [cursorAfter, if_neg hc] at h
      rw [executeSteps, if_neg hc]
      cases hstep : executeStep ws.function_details (gw idx) (order idx) (stepDetailAt ws c) st with
      | mk conv res =>
        cases res with
        | ok st' => exact ih _ _ _ _ h
        | error e => simp

/-- C6 (amended): the spec claims every loaded workspace's step loop visits
each step at most once and terminates within the number of distinct steps;
the loader actually admits cyclic graphs on which the loop never reaches the
sentinel.  What holds: whenever the visit trace is duplicate-free, the cursor
reaches the sentinel within (number of step details) + 1 iterations and the
step loop does not exhaust that iteration budget. -/
theorem step_loop_terminates_on_nodup_trace
    (ws : WorkspaceData) (gw : Nat → List Message → List Json → LLMResponse)
    (order : Nat → List Nat) (current_step : String) (idx : Nat) (st : RunState)
    (log : List (List Message))
    (hnd : (visitTrace ws.step_details current_step (ws.step_details.length + 2)).Nodup) :
    cursorAfter ws.step_details current_step (ws.step_details.length + 1) = "-" ∧
    executeSteps ws gw order (ws.step_details.length + 2) current_step idx st log ≠ .outOfFuel := by
  have hsent : cursorAfter ws.step_details current_step (ws.step_details.length + 1) = "-" := by
    by_contra hne
    have hlen := visitTrace_length ws.step_details (ws.step_details.length + 1) current_step hne
    have hmem := visitTrace_mem_keys ws.step_details (ws.step_details.length + 1) current_step hne
    have hsub : visitTrace ws.step_details current_step (ws.step_details.length + 1) ⊆
        ws.step_details.map Prod.fst := fun _ hx => hmem _ hx
    have hnd' : (visitTrace ws.step_details current_step (ws.step_details.length + 1)).Nodup := by
      rw [visitTrace_take (ws.step_details.length + 1) (ws.step_details.length + 2) current_step
        (by omega)]
      exact List.Nodup.sublist (List.take_sublist _ _) hnd
    have hle := (hnd'.subperm hsub).length_le
    rw [hlen, List.length_map] at hle
    omega
  exact ⟨hsent, executeSteps_not_outOfFuel (ws.step_details.length + 1) current_step idx st log hsent⟩

/-- C6 (amended) witness: on the acyclic two-step chain the trace is
duplicate-free, the cursor reaches the sentinel, and the loop terminates. -/
theorem step_loop_terminates_on_nodup_trace_witness :
    cursorAfter ws_chain2.step_details "s1" (ws_chain2.step_details.length + 1) = "-" ∧
    executeSteps ws_chain2 gw_say_hi noSchedule (ws_chain2.step_details.length + 2) "s1" 0 {} [] ≠
      .outOfFuel :=
  step_loop_terminates_on_nodup_trace ws_chain2 gw_say_hi noSchedule "s1" 0 {} [] (by decide)

/-- C1 (amended): there is no model/tool loop and no `maxIterations` in the
executed pipeline — each visited step performs exactly one gateway call, so a
completed run's gateway-call log grows by exactly the number of visited
steps.  (The iteration-capped loop described by the spec does not exist in
the code.) -/
theorem gateway_calls_equal_visited_steps
    (ws : WorkspaceData) (gw : Nat → List Message → List Json → LLMResponse)
    (order : Nat → List Nat) :
    ∀ (fuel : Nat) (current_step : String) (idx : Nat) (st : RunState)
      (log : List (List Message)) (st' : RunState) (log' : List (List Message)),
      executeSteps ws gw order fuel current_step idx st log = .completed st' log' →
      log'.length = log.length + (visitTrace ws.step_details current_step fuel).length := by
  intro fuel
  induction fuel with
  | zero =>
    intro c idx st log st' log' h
    exact RunResult.noConfusion h
  | succ n ih =>
    intro c idx st log st' log' h
    by_cases hc : c = "-"
    · subst hc
      rw [executeSteps, if_pos rfl] at h
      cases h
      simp [visitTrace]
    · rw [executeSteps, if_neg hc] at h
      rw [visitTrace, if_neg hc]
      cases hstep : executeStep ws.function_details (gw idx) (order idx) (stepDetailAt ws c) st with
      | mk conv res =>
        rw [hstep] at h
        cases res with
        | ok st1 =>
          have hrec := ih (nextOf ws.step_details c) (idx + 1) st1 (log ++ [conv]) st' log' h
          rw [hrec]
          simp
          omega
        | error e => exact RunResult.noConfusion h

/-- C1 (amended) witness: the single-step always-requesting scenario makes
one gateway call and one visited step. -/
theorem gateway_calls_equal_visited_steps_witness :
    ([[{ role := "user", content := "go" }]] : List (List Message)).length =
      ([] : List (List Message)).length + (visitTrace ws_single_tool.step_details "s" 5).length :=
  gateway_calls_equal_visited_steps ws_single_tool alwaysToolGateway noSchedule 5 "s" 0 {} []
    { history := [{ role := "assistant", content := "" },
                  { role := "tool", content := "done", tool_call_id := some "call_1",
                    name := some "echo_tool" }],
      results := [("echo_tool", Json.str "done")] }
    [[{ role := "user", content := "go" }]] rfl

/-- Sequential execution of a successful batch appends exactly one tool
message per call, in execution order. -/
theorem seq_run_history_ids (fd : List (String × Detail)) :
    ∀ (l : List ToolCall) (st st' : RunState),
      (∀ c ∈ l, c.id ≠ "") →
      execute_functions_seq_run fd l st = .ok st' →
      st'.history.map (fun m => m.tool_call_id) =
        st.history.map (fun m => m.tool_call_id) ++ l.map (fun c => some c.id) := by
  intro l
  induction l with
  | nil =>
    intro st st' _ h
    rw [execute_functions_seq_run] at h
    cases h
    simp
  | cons c rest ih =>
    intro st st' hids h
    rw [execute_functions_seq_run] at h
    cases hf : execute_function_run fd c st with
    | error e => rw [hf] at h; exact Except.noConfusion h
    | ok st1 =>
      rw [hf] at h
      have hmsg : st1.history.map (fun m => m.tool_call_id) =
          st.history.map (fun m => m.tool_call_id) ++ [some c.id] := by
        have hcid : c.id ≠ "" := hids c (List.mem_cons_self c rest)
        unfold execute_function_run at hf
        cases hff : find_function fd c.name with
        | error e => rw [hff] at hf; exact Except.noConfusion hf
        | ok f =>
          rw [hff] at hf
          dsimp only at hf
          cases hres : f c.args with
          | error e => rw [hres] at hf; exact Except.noConfusion hf
          | ok result =>
            rw [hres] at hf
            dsimp only at hf
            rw [if_pos (bne_iff_ne.mpr hcid)] at hf
            cases hf
            simp
      rw [ih st1 st' (fun d hd => hids d (List.mem_cons_of_mem _ hd)) h, hmsg]
      simp

/-- A sequential batch containing a call whose function does not resolve
always raises: execution either reaches that call (and its resolution error
propagates) or an earlier call's error propagates first. -/
theorem seq_run_error_of_unresolved (fd : List (String × Detail)) :
    ∀ (l : List ToolCall) (st : RunState) (c : ToolCall),
      c ∈ l → (∃ e, find_function fd c.name = .error e) →
      ∃ err, execute_functions_seq_run fd l st = .error err := by
  intro l
  induction l with
  | nil => intro st c hc _; cases hc
  | cons a rest ih =>
    intro st c hc hfind
    rw [execute_functions_seq_run]
    cases hf : execute_function_run fd a st with
    | error e => exact ⟨e, rfl⟩
    | ok st1 =>
      rcases List.mem_cons.mp hc with rfl | hcr
      · obtain ⟨e, he⟩ := hfind
        unfold execute_function_run at hf
        rw [he] at hf
        exact Except.noConfusion hf
      · exact ih st1 c hcr hfind

/-- The executor-module "parallel" dispatcher awaits its bare coroutines one
at a time inside the yield loop, so its outcomes are yielded in request
order. -/
theorem executor_parallel_yields_request_order (fd : List (String × Detail)) (calls : List ToolCall) :
    (execute_functions_parallel fd calls).map (fun t => t.1) = calls.map (fun c => c.id) := by
  unfold execute_functions_parallel
  rw [List.map_map]
  apply List.map_congr_left
  intro c _
  cases hx : execute_function_exec fd c <;> simp [Function.comp, hx]

/-- C2 (amended): the executed parallel path (`asyncio.gather` with each task
appending its own tool message on completion) appends the batch's tool
messages in task *completion* order — the completion schedule — not in
request order; the request-order guarantee holds only of the executor-module
parallel dispatcher, which executes the calls one at a time in request order. -/
theorem parallel_appends_in_completion_order
    (fd : List (String × Detail)) (calls : List ToolCall) (order : List Nat) (st st' : RunState)
    (hids : ∀ c ∈ calls, c.id ≠ "")
    (h : execute_functions_par_run fd calls order st = .ok st') :
    st'.history.map (fun m => m.tool_call_id) =
      st.history.map (fun m => m.tool_call_id) ++
        (order.filterMap (fun i => calls[i]?)).map (fun c => some c.id) ∧
    (execute_functions_parallel fd calls).map (fun t => t.1) = calls.map (fun c => c.id) := by
  constructor
  · refine seq_run_history_ids fd _ st st' ?_ h
    intro c hc
    obtain ⟨i, _, hi⟩ := List.mem_filterMap.mp hc
    exact hids c (List.getElem?_mem hi)
  · exact executor_parallel_yields_request_order fd calls

/-- C2 (amended) witness: the three-call batch under completion schedule
`[2, 0, 1]` appends ids `c, a, b`, while the executor-module dispatcher
yields ids `a, b, c`. -/
theorem parallel_appends_in_completion_order_witness :
    ({ history := [{ role := "tool", content := "rc", tool_call_id := some "c", name := some "fc" },
                   { role := "tool", content := "ra", tool_call_id := some "a", name := some "fa" },
                   { role := "tool", content := "rb", tool_call_id := some "b", name := some "fb" }],
       results := [("fc", Json.str "rc"), ("fa", Json.str "ra"), ("fb", Json.str "rb")] } :
        RunState).history.map (fun m => m.tool_call_id) =
      (({} : RunState).history.map (fun m => m.tool_call_id) ++
        (([2, 0, 1] : List Nat).filterMap (fun i => calls_abc[i]?)).map (fun c => some c.id)) ∧
    (execute_functions_parallel fd_abc calls_abc).map (fun t => t.1) =
      calls_abc.map (fun c => c.id) :=
  parallel_appends_in_completion_order fd_abc calls_abc [2, 0, 1] {} _ (by decide) rfl

/-- C2 (counterexample): for the batch with ids `[a, b, c]` completing in
order `[c, a, b]`, the conversation receives the tool messages in order
`[c, a, b]`, not in the original request order `[a, b, c]`. -/
theorem parallel_order_counterexample :
    parHistoryIds fd_abc calls_abc [2, 0, 1] {} = some [some "c", some "a", some "b"] ∧
    [some "c", some "a", some "b"] ≠ [some "a", some "b", some "c"] := by
  exact ⟨rfl, by decide⟩

/-- C3 (amended): a runtime failure inside a resolved implementation is
converted into a `error: message` outcome only by the executor-module
dispatchers (`execute_functions_sequential`/`execute_functions_parallel`),
which yield it in place and keep executing the remaining calls; in the Run
executor actually driving runs (`Run._execute_function`), the exception is
re-raised after sealing the audit record, so the step aborts and the Run
fails rather than reaching completed. -/
theorem executor_module_contains_runtime_errors
    (fd : List (String × Detail)) (calls : List ToolCall) (i : Nat) (c : ToolCall) (m : String)
    (hc : calls[i]? = some c) (herr : execute_function_exec fd c = .error m) :
    (execute_functions_sequential fd calls)[i]? =
      some (c.id, c.name, Json.obj [("error", Json.str m)]) ∧
    (execute_functions_sequential fd calls).length = calls.length ∧
    (execute_functions_parallel fd calls)[i]? =
      some (c.id, c.name, Json.obj [("error", Json.str m)]) := by
  refine ⟨?_, by simp [execute_functions_sequential], ?_⟩ <;>
    simp [execute_functions_sequential, execute_functions_parallel, hc, herr]

/-- C3 (amended) witness: the raising tool's yielded outcome is the
structured error and the batch output keeps its length. -/
theorem executor_module_contains_runtime_errors_witness :
    (execute_functions_sequential ws_raising_tool.function_details
        [{ id := "c1", name := "boom_tool" }])[0]? =
      some ("c1", "boom_tool", Json.obj [("error", Json.str "boom")]) ∧
    (execute_functions_sequential ws_raising_tool.function_details
        [{ id := "c1", name := "boom_tool" }]).length =
      ([{ id := "c1", name := "boom_tool" }] : List ToolCall).length ∧
    (execute_functions_parallel ws_raising_tool.function_details
        [{ id := "c1", name := "boom_tool" }])[0]? =
      some ("c1", "boom_tool", Json.obj [("error", Json.str "boom")]) :=
  executor_module_contains_runtime_errors ws_raising_tool.function_details
    [{ id := "c1", name := "boom_tool" }] 0 { id := "c1", name := "boom_tool" } "boom" rfl rfl

/-- C3 (counterexample): in the executed pipeline a tool that raises at
runtime makes the whole run fail — the error is not captured into the
results and the Run does not reach completed. -/
theorem tool_error_containment_counterexample :
    executeRun ws_raising_tool gw_request_boom noSchedule 2 = .failed "boom" ∧
    (executeRun ws_raising_tool gw_request_boom noSchedule 2).isCompleted = false :=
  ⟨rfl, rfl⟩

/-- A step whose gateway response requests a call to an unresolvable function
raises out of the dispatch (under either policy, provided the parallel
completion schedule runs the call). -/
theorem executeStep_error_of_unresolved
    (fd : List (String × Detail)) (gwi : List Message → List Json → LLMResponse)
    (order : List Nat) (d : Detail) (st : RunState) (i : Nat) (c : ToolCall) (e : String)
    (hresp : ((gwi (stepConversation d st) (buildToolsRun fd d.functionNames)).tool_calls)[i]? =
      some c)
    (hfind : find_function fd c.name = .error e)
    (hpar : d.runFunctionsInParallel = true → i ∈ order) :
    ∃ err, (executeStep fd gwi order d st).2 = .error err := by
  unfold executeStep
  dsimp only
  have hne : (gwi (stepConversation d st) (buildToolsRun fd d.functionNames)).tool_calls ≠ [] := by
    intro h0
    rw [h0] at hresp
    simp at hresp
  rw [if_pos (by simpa using hne)]
  by_cases hp : d.runFunctionsInParallel
  · rw [if_pos hp]
    refine seq_run_error_of_unresolved fd _ _ c ?_ ⟨e, hfind⟩
    exact List.mem_filterMap.mpr ⟨i, hpar hp, hresp⟩
  · rw [if_neg hp]
    exact seq_run_error_of_unresolved fd _ _ c (List.getElem?_mem hresp) ⟨e, hfind⟩

/-- C4: a tool call whose function name resolves to no implementation
(unknown name, no inline code) raises a `ValueError` that is not converted
into an `error:` outcome — it aborts the step and the whole run, which fails
instead of completing. -/
theorem unresolved_function_fails_run
    (ws : WorkspaceData) (gw : Nat → List Message → List Json → LLMResponse)
    (order : Nat → List Nat) (fuel : Nat) (current_step : String) (idx : Nat)
    (st : RunState) (log : List (List Message)) (i : Nat) (c : ToolCall) (e : String)
    (hcur : current_step ≠ "-")
    (hresp : ((gw idx (stepConversation (stepDetailAt ws current_step) st)
        (buildToolsRun ws.function_details (stepDetailAt ws current_step).functionNames)).tool_calls)[i]? =
      some c)
    (hfind : find_function ws.function_details c.name = .error e)
    (hpar : (stepDetailAt ws current_step).runFunctionsInParallel = true → i ∈ order idx) :
    ∃ err, executeSteps ws gw order (fuel + 1) current_step idx st log = .failed err := by
  obtain ⟨err, herr⟩ := executeStep_error_of_unresolved ws.function_details (gw idx) (order idx)
    (stepDetailAt ws current_step) st i c e hresp hfind hpar
  refine ⟨err, ?_⟩
  rw [executeSteps, if_neg hcur]
  cases hstep : executeStep ws.function_details (gw idx) (order idx) (stepDetailAt ws current_step) st with
  | mk conv res =>
    rw [hstep] at herr
    dsimp only at herr
    subst herr
    rfl

/-- C4 witness: a step referencing `ghost_tool`, which is neither registered
nor given inline code, makes the run fail. -/
theorem unresolved_function_fails_run_witness :
    ∃ err, executeSteps ws_ghost_tool gw_request_ghost noSchedule 1 "s" 0 {} [] = .failed err :=
  unresolved_function_fails_run ws_ghost_tool gw_request_ghost noSchedule 0 "s" 0 {} [] 0
    { id := "g1", name := "ghost_tool" } _ (by decide) rfl rfl (by decide)

/-- C1 (counterexample): with a model that requests a tool call on every
response, the executed pipeline performs exactly 1 gateway call for the step
— not 5 — and still completes the run, keeping the tool result. -/
theorem iteration_cap_counterexample :
    (executeRun ws_single_tool alwaysToolGateway noSchedule 5).gatewayCallCount = some 1 ∧
    (executeRun ws_single_tool alwaysToolGateway noSchedule 5).gatewayCallCount ≠ some 5 ∧
    (executeRun ws_single_tool alwaysToolGateway noSchedule 5).isCompleted = true ∧
    (executeRun ws_single_tool alwaysToolGateway noSchedule 5).finalResults =
      some [("echo_tool", Json.str "done")] :=
  ⟨rfl, by decide, rfl, rfl⟩

/-- C5 (counterexample): the workspace whose step graph is a self-cycle loads
without any error — the loader returns it as a workspace even though it
violates the spec's validity condition. -/
theorem load_validation_counterexample :
    ((load cyclicWorkspaceJson).step_details.lookup "a").map (fun d => d.nextStep) =
      some (some "a") ∧
    (load cyclicWorkspaceJson).steps = [⟨"a"⟩] ∧
    specValidStepGraph (load cyclicWorkspaceJson) = false :=
  ⟨rfl, rfl, rfl⟩

/-- C5 (amended): `WorkspaceManager.load` performs no validation at all and
has no failure path: a workspace whose `nextStep` dangles (and likewise one
with a cycle) loads successfully, its invalid graph passed through intact. -/
theorem load_never_validates :
    ((load danglingWorkspaceJson).step_details.lookup "a").map (fun d => d.nextStep) =
      some (some "zzz") ∧
    (load danglingWorkspaceJson).step_details.lookup "zzz" = none ∧
    (load danglingWorkspaceJson).steps = [⟨"a"⟩] ∧
    specValidStepGraph (load danglingWorkspaceJson) = false :=
  ⟨rfl, rfl, rfl, rfl⟩

/-- C6 (counterexample): the loadable self-cycle workspace has 1 distinct
step, yet the run is still looping after 1 iteration and the loop visits
step `a` twice within 2 iterations. -/
theorem termination_counterexample :
    ws_cyclic.step_details.length = 1 ∧
    executeRun ws_cyclic gw_say_hi noSchedule 1 = .outOfFuel ∧
    visitTrace ws_cyclic.step_details "a" 2 = ["a", "a"] :=
  ⟨rfl, rfl, by decide⟩

/-- C7 (amended): the initial message set of a step is chosen by the flag of
the step being *entered* (the flag of the previous step has no effect): the
run.py selection of `_execute_step` coincides with `prepare_conversation`
applied to the entered step's detail and the current history. -/
theorem conversation_selection_uses_entered_step_flag
    (fd : List (String × Detail)) (gwi : List Message → List Json → LLMResponse)
    (order : List Nat) (d : Detail) (st : RunState) :
    (executeStep fd gwi order d st).1 = prepare_conversation d (some st.history) := rfl

/-- C7 (counterexample): step 1 sets `passConversationToNextStep`, yet step
2's initial message set is its own static template, not step 1's final
conversation state. -/
theorem conversation_carry_counterexample :
    (executeStep ws_two_steps.function_details (gw_say_hi 0) (noSchedule 0)
        (stepDetailAt ws_two_steps "s1") {}).2 =
      .ok { history := [{ role := "assistant", content := "hi" }], results := [] } ∧
    (executeRun ws_two_steps gw_say_hi noSchedule 3).sentLog = some [chat1, chat2] ∧
    chat2 ≠ [{ role := "assistant", content := "hi" }] :=
  ⟨rfl, rfl, by decide⟩

/-- C9: `process_text("Hello, world!", ["lowercase","count_chars"])` returns
the expected mapping, and a run of the test workspace records it under
`results["process_text"]` with the run completed. -/
theorem process_text_scenario :
    process_text "Hello, world!" ["lowercase", "count_chars"] =
      [("lowercase", Json.str "hello, world!"), ("count_chars", Json.num 13)] ∧
    (executeRun ws_process_text gw_process_text noSchedule 2).finalResults =
      some [("process_text",
        Json.obj [("lowercase", Json.str "hello, world!"), ("count_chars", Json.num 13)])] ∧
    (executeRun ws_process_text gw_process_text noSchedule 2).isCompleted = true :=
  ⟨rfl, rfl, rfl⟩

/-- C10: when the entered step's `passConversationToNextStep` flag is set but
the accumulated history is `None` or empty, both conversation-selection
implementations fall back to the step's static template. -/
theorem empty_history_falls_back_to_template
    (d : Detail) (fd : List (String × Detail)) (gwi : List Message → List Json → LLMResponse)
    (order : List Nat) (res : List (String × Json))
    (_hflag : d.passConversationToNextStep = true) :
    prepare_conversation d none = d.chat ∧
    prepare_conversation d (some []) = d.chat ∧
    (executeStep fd gwi order d { history := [], results := res }).1 = d.chat := by
  refine ⟨?_, ?_, ?_⟩ <;>
    simp [prepare_conversation, pyTruthyList, executeStep, stepConversation]

/-- C10 witness: the flag-carrying detail with empty history selects its own
template. -/
theorem empty_history_falls_back_to_template_witness :
    prepare_conversation passFlagDetail none = passFlagDetail.chat ∧
    prepare_conversation passFlagDetail (some []) = passFlagDetail.chat ∧
    (executeStep [] (gw_say_hi 0) [] passFlagDetail { history := [], results := [] }).1 =
      passFlagDetail.chat :=
  empty_history_falls_back_to_template passFlagDetail [] (gw_say_hi 0) [] [] rfl

/-- Python dict assignment on a key absent from the association list is an
append. -/
theorem insertReplace_append {α : Type} (l : List (String × α)) (k : String) (v : α)
    (h : ∀ kv ∈ l, kv.1 ≠ k) : insertReplace l k v = l ++ [(k, v)] := by
  have hany : l.any (fun p => p.1 == k) = false := by
    rw [List.any_eq_false]
    intro p hp
    simp [h p hp]
  rw [insertReplace, hany]
  simp

/-- The `required` accumulator of the client.py converter collects every
parameter name, in declaration order. -/
theorem convert_fold_required (params : List Param) (accP : List (String × Json))
    (accR : List String) :
    (params.foldl
      (fun (pr : List (String × Json) × List String) param =>
        (insertReplace pr.1 param.name (clientParamProp param), pr.2 ++ [param.name]))
      (accP, accR)).2 = accR ++ params.map (fun q => q.name) := by
  induction params generalizing accP accR with
  | nil => simp
  | cons p rest ih => simp [List.foldl_cons, ih]

/-- The `required` accumulator of the run.py converter collects every
parameter name, in declaration order. -/
theorem run_convert_fold_required (params : List Param) (accP : List (String × Json))
    (accR : List String) :
    (params.foldl
      (fun (pr : List (String × Json) × List String) param =>
        (insertReplace pr.1 param.name (runParamProp param), pr.2 ++ [param.name]))
      (accP, accR)).2 = accR ++ params.map (fun q => q.name) := by
  induction params generalizing accP accR with
  | nil => simp
  | cons p rest ih => simp [List.foldl_cons, ih]

/-- With duplicate-free parameter names, the client.py converter's
`properties` accumulator is the association list of per-parameter property
objects, in declaration order. -/
theorem convert_fold_properties (params : List Param) (accP : List (String × Json))
    (accR : List String)
    (hnd : (params.map (fun q => q.name)).Nodup)
    (hdisj : ∀ q ∈ params, ∀ kv ∈ accP, kv.1 ≠ q.name) :
    (params.foldl
      (fun (pr : List (String × Json) × List String) param =>
        (insertReplace pr.1 param.name (clientParamProp param), pr.2 ++ [param.name]))
      (accP, accR)).1 = accP ++ params.map (fun q => (q.name, clientParamProp q)) := by
  induction params generalizing accP accR with
  | nil => simp
  | cons p rest ih =>
    rw [List.foldl_cons]
    have hstep : insertReplace accP p.name (clientParamProp p) = accP ++ [(p.name, clientParamProp p)] :=
      insertReplace_append accP p.name (clientParamProp p)
        (fun kv hkv => hdisj p (List.mem_cons_self p rest) kv hkv)
    have hnd' : (rest.map (fun q => q.name)).Nodup := (List.nodup_cons.mp (by simpa using hnd)).2
    have hhead : p.name ∉ rest.map (fun q => q.name) := (List.nodup_cons.mp (by simpa using hnd)).1
    have hdisj' : ∀ q ∈ rest, ∀ kv ∈ accP ++ [(p.name, clientParamProp p)], kv.1 ≠ q.name := by
      intro q hq kv hkv
      rcases List.mem_append.mp hkv with hkv | hkv
      · exact hdisj q (List.mem_cons_of_mem _ hq) kv hkv
      · simp at hkv
        subst hkv
        show p.name ≠ q.name
        intro hEq
        apply hhead
        rw [hEq]
        exact List.mem_map.mpr ⟨q, hq, rfl⟩
    rw [hstep] at *
    rw [ih (accP ++ [(p.name, clientParamProp p)]) (accR ++ [p.name]) hnd' hdisj']
    simp

/-- Looking up a parameter's name in the name-keyed association list built
from a duplicate-free parameter list yields that parameter's entry. -/
theorem lookup_map_name {β : Type} (params : List Param) (p : Param)
    (hnd : (params.map (fun q => q.name)).Nodup) (hp : p ∈ params) (f : Param → β) :
    (params.map (fun q => (q.name, f q))).lookup p.name = some (f p) := by
  induction params with
  | nil => cases hp
  | cons a rest ih =>
    rw [List.map_cons, List.lookup_cons]
    rcases List.mem_cons.mp hp with rfl | hpr
    · simp
    · have ha : a.name ∉ rest.map (fun q => q.name) := (List.nodup_cons.mp (by simpa using hnd)).1
      have hne : p.name ≠ a.name := by
        intro hEq
        apply ha
        rw [← hEq]
        exact List.mem_map.mpr ⟨p, hpr, rfl⟩
      rw [beq_eq_false_iff_ne.mpr hne]
      exact ih (List.nodup_cons.mp (by simpa using hnd)).2 hpr

/-- C8 (amended): both converters place every declared parameter name in
`required`; the `items` rendering of array-typed parameters holds only of the
client.py converter — the run.py converter emits no `items` member (see the
counterexample). -/
theorem schema_required_and_client_items (params : List Param) (p : Param)
    (hnd : (params.map (fun q => q.name)).Nodup) (hp : p ∈ params) :
    (convert_parameters_to_schema params).get? "required" =
      some (Json.arr ((params.map (fun q => q.name)).map Json.str)) ∧
    (Run_convert_parameters_to_schema params).get? "required" =
      some (Json.arr ((params.map (fun q => q.name)).map Json.str)) ∧
    (p.type = "array" →
      ((convert_parameters_to_schema params).get? "properties").bind (fun o => o.get? p.name) =
        some (Json.obj [("type", Json.str "array"), ("description", Json.str p.description),
                        ("items", Json.obj [("type", Json.str "string")])])) := by
  refine ⟨?_, ?_, ?_⟩
  · have h1 : (convert_parameters_to_schema params).get? "required" =
        some (Json.arr (((params.foldl
          (fun (pr : List (String × Json) × List String) param =>
            (insertReplace pr.1 param.name (clientParamProp param), pr.2 ++ [param.name]))
          ([], [])).2).map Json.str)) := rfl
    rw [h1, convert_fold_required]
    simp
  · have h1 : (Run_convert_parameters_to_schema params).get? "required" =
        some (Json.arr (((params.foldl
          (fun (pr : List (String × Json) × List String) param =>
            (insertReplace pr.1 param.name (runParamProp param), pr.2 ++ [param.name]))
          ([], [])).2).map Json.str)) := rfl
    rw [h1, run_convert_fold_required]
    simp
  · intro hty
    have h2 : (convert_parameters_to_schema params).get? "properties" =
        some (Json.obj ((params.foldl
          (fun (pr : List (String × Json) × List String) param =>
            (insertReplace pr.1 param.name (clientParamProp param), pr.2 ++ [param.name]))
          ([], [])).1)) := rfl
    rw [h2, convert_fold_properties params [] [] hnd (fun q _ kv hkv => absurd hkv (List.not_mem_nil kv))]
    show ((params.map (fun q => (q.name, clientParamProp q))).lookup p.name) = _
    rw [lookup_map_name params p hnd hp (fun q => clientParamProp q)]
    rw [clientParamProp, if_pos hty]

/-- C8 (amended) witness: the one-array-parameter list has both `required`
lists equal to its name and the client.py property carrying string items. -/
theorem schema_required_and_client_items_witness :
    (convert_parameters_to_schema arrayParamList).get? "required" =
      some (Json.arr ((arrayParamList.map (fun q => q.name)).map Json.str)) ∧
    (Run_convert_parameters_to_schema arrayParamList).get? "required" =
      some (Json.arr ((arrayParamList.map (fun q => q.name)).map Json.str)) ∧
    (("array" : String) = "array" →
      ((convert_parameters_to_schema arrayParamList).get? "properties").bind
          (fun o => o.get? "operations") =
        some (Json.obj [("type", Json.str "array"), ("description", Json.str "ops to run"),
                        ("items", Json.obj [("type", Json.str "string")])])) :=
  schema_required_and_client_items arrayParamList ⟨"operations", "array", "ops to run"⟩
    (by decide) (by decide)

/-- C8 (counterexample): for an array-typed parameter the run.py converter
emits a property with no `items` member at all, while the client.py converter
emits `items` of type string — the claim fails for one of the two
implementations. -/
theorem schema_items_counterexample :
    (((Run_convert_parameters_to_schema arrayParamList).get? "properties").bind
        (fun o => o.get? "operations")).bind (fun o => o.get? "items") = none ∧
    (Run_convert_parameters_to_schema arrayParamList).get? "required" =
      some (Json.arr [Json.str "operations"]) ∧
    (((convert_parameters_to_schema arrayParamList).get? "properties").bind
        (fun o => o.get? "operations")).bind (fun o => o.get? "items") =
      some (Json.obj [("type", Json.str "string")]) :=
  ⟨rfl, rfl, rfl⟩
